import Mathlib

/-!
Shallow embedding of the `bhmills_bookings` repository (files
`booking_user.py`, `booking_system.py`) in Lean 4.

Modelling conventions:

* Calendar dates are represented by their day number (`Nat`, days since an
  arbitrary epoch).  The Python code normalizes every date through
  `parser.parse(...)` followed by `strftime("%Y-%m-%d")`, which is injective
  on days, so a canonical `Nat` day number is a faithful representation and
  the normalization `parse ∘ strftime` becomes the identity.
* Instants (`datetime.datetime`) are represented at minute granularity as
  minutes since the epoch (`Nat`); midnight of day `d` is `d * 1440`.
* `datetime.timedelta` values produced by `_parse_hour` are total minutes
  (`Int`, since Python `int(...)` may be negative for exotic strings).
* Python exceptions are modelled with `Except PyError`; an exception raised
  inside a loop discards the partial result, exactly as in Python.
* Weekday names (`day.strftime("%A")`) are the usual seven strings; the
  epoch is aligned so that day `0` is a Monday (the alignment is irrelevant,
  every theorem below is invariant under it).
* `str.lower()` is modelled on ASCII strings (all strings handled by the
  program are ASCII).
-/

/-- The Python exception kinds the embedded code can raise. -/
inductive PyError where
  | keyError
  | valueError
  | indexError
  | attributeError
  | typeError
deriving DecidableEq

instance {ε α : Type} [DecidableEq ε] [DecidableEq α] : DecidableEq (Except ε α) := fun x y =>
  match x, y with
  | .error a, .error b =>
      if h : a = b then .isTrue (by rw [h]) else .isFalse (fun hh => h (Except.error.inj hh))
  | .ok a, .ok b =>
      if h : a = b then .isTrue (by rw [h]) else .isFalse (fun hh => h (Except.ok.inj hh))
  | .error _, .ok _ => .isFalse (fun hh => Except.noConfusion hh)
  | .ok _, .error _ => .isFalse (fun hh => Except.noConfusion hh)

/-- ASCII lower-casing of one character (model of `str.lower` per character). -/
def pyCharLower (c : Char) : Char :=
  if 65 ≤ c.toNat ∧ c.toNat ≤ 90 then Char.ofNat (c.toNat + 32) else c

/-- Model of Python `str.lower()` on the ASCII strings used by the program. -/
def pyLower (s : String) : String :=
  String.mk (s.data.map pyCharLower)

/-- Split a character list at a separator character, keeping empty pieces
(the behaviour of Python `str.split(sep)` with an explicit separator). -/
def splitCharAux (sep : Char) : List Char → List Char → List (List Char)
  | cur, [] => [cur.reverse]
  | cur, c :: rest =>
    if c = sep then cur.reverse :: splitCharAux sep [] rest
    else splitCharAux sep (c :: cur) rest

/-- Python `str.split()` (no argument): split on whitespace, dropping empty
pieces.  The program only ever feeds single-space separated strings. -/
def pySplitWs (s : String) : List String :=
  ((splitCharAux ' ' [] s.data).filter (fun t => t ≠ [])).map String.mk

/-- Python `str.split(":")`. -/
def pySplitColon (s : String) : List String :=
  (splitCharAux ':' [] s.data).map String.mk

def digitsToNatAux : List Char → Nat → Option Nat
  | [], acc => some acc
  | c :: rest, acc =>
    if c.isDigit then digitsToNatAux rest (acc * 10 + (c.toNat - 48)) else none

/-- Model of Python `int(s)` on the numeric strings the program handles:
an optional leading minus sign followed by decimal digits; anything else
raises `ValueError`. -/
def pyInt (s : String) : Except PyError Int :=
  match s.data with
  | [] => .error .valueError
  | '-' :: rest =>
    match rest with
    | [] => .error .valueError
    | _ =>
      match digitsToNatAux rest 0 with
      | some n => .ok (-(n : Int))
      | none => .error .valueError
  | l =>
    match digitsToNatAux l 0 with
    | some n => .ok (n : Int)
    | none => .error .valueError

/-- `BookingUser._parse_hour` (booking_user.py lines 194-203).

    hour = hour_minutes.split()
    hour_int = int(hour[0].split(":")[0])
    minutes_int = int(hour[0].split(":")[1])
    time_of_day = hour[1].lower()
    if time_of_day == 'pm': hour_int = hour_int + 12
    return timedelta(hours=hour_int, minutes=minutes_int)

The returned `timedelta` is represented as its total number of minutes.
Note that the `+ 12` shift for "pm" is applied unconditionally. -/
def parseHour (s : String) : Except PyError Int :=
  match pySplitWs s with
  | [] => .error .indexError
  | hm :: restParts =>
    match pySplitColon hm with
    | [] => .error .indexError
    | h0 :: hpRest =>
      match pyInt h0 with
      | .error e => .error e
      | .ok hInt =>
        match hpRest with
        | [] => .error .indexError
        | m0 :: _ =>
          match pyInt m0 with
          | .error e => .error e
          | .ok mInt =>
            match restParts with
            | [] => .error .indexError
            | tod :: _ =>
              let hInt2 := if pyLower tod = "pm" then hInt + 12 else hInt
              .ok (hInt2 * 60 + mInt)

/-- The seven values of `day.strftime("%A")`. -/
def weekdayNames : List String :=
  ["Monday", "Tuesday", "Wednesday", "Thursday", "Friday", "Saturday", "Sunday"]

/-- `day.strftime("%A")` for the day with number `d` (epoch aligned on a
Monday; all theorems are invariant under this alignment). -/
def weekdayName (d : Nat) : String :=
  weekdayNames.getD (d % 7) ""

/-- Python `dict[key]` lookup on an insertion-ordered association list. -/
def lookupStr {α : Type} (k : String) : List (String × α) → Option α
  | [] => none
  | (k2, v) :: rest => if k2 = k then some v else lookupStr k rest

/-- One entry `day_p = (weekday, hours, friends)` of a user preference list
(`user_info["preferences"][class_type]`). -/
structure DayPreference where
  weekday : String
  hours : List String
  friends : List String
deriving DecidableEq

/-- A candidate tuple `(class_date, weekday, hour, friends)` as built by
`_filter_days_to_schedule`. -/
structure Candidate where
  date : Nat
  weekday : String
  hour : String
  friends : List String
deriving DecidableEq

/-- One normalized entry of `get_scheduled_classes`: `class_tmp` with
`classDate = (day.strftime("%Y-%m-%d"), day.strftime("%A"))` split into its
two components. -/
structure ScheduledClass where
  booking_id : String
  class_id : String
  classDate : Nat
  classWeekday : String
  classTime : String
deriving DecidableEq

/-- One raw element of the remote `api/users/<class_type>/upcoming` response,
flattened: outer `_id` and `status`, inner `class._id`, `class.classDate`
(already as a day number, see the date convention above) and
`class.classTime`. -/
structure RawBooking where
  booking_id : String
  status : String
  class_id : String
  classDay : Nat
  classTime : String
deriving DecidableEq

/-- A real bookable class returned inside a day group of the remote slot
inventory (`real_class` in `get_classes_to_schedule`).  `classDate` is the
slot's day number (canonical, so the in-place normalization
`parser.parse(...).strftime("%Y-%m-%d")` performed by the code is the
identity here). -/
structure RemoteSlot where
  slot_id : String
  classDate : Nat
  classTime : String
  limit : Int
  joinedUsers : Int
  active : Bool
deriving DecidableEq

/-- One element `b` of the remote inventory response: `_id` (a date string,
parsed to the day number `day_id`) and the day's class list. -/
structure RemoteDay where
  day_id : Nat
  classes : List RemoteSlot
deriving DecidableEq

/-- `self.classes` of `BookingUser.__init__`. -/
def userClasses : List String :=
  ["swimmingClass", "gymClass", "tennisClass"]

/-- `BookingUser.get_scheduled_classes` (booking_user.py lines 23-43), given
the successful JSON responses `remote class_type` of the per-class-type
requests: keep the bookings with `status == "active"`, in response order,
normalizing each into a `ScheduledClass`. -/
def getScheduledClasses (remote : String → List RawBooking) :
    List (String × List ScheduledClass) :=
  userClasses.map (fun ctype =>
    (ctype, ((remote ctype).filter (fun b => b.status = "active")).map
      (fun b => ⟨b.booking_id, b.class_id, b.classDay, weekdayName b.classDay, b.classTime⟩)))

/-- One iteration of the loop of `_generate_candidate_days`: insert day `d`
under key `w`, appending to an existing entry in place (Python dict update)
or adding a new key at the end. -/
def addCandidateDay (acc : List (String × List Nat)) (w : String) (d : Nat) :
    List (String × List Nat) :=
  if (lookupStr w acc).isSome then
    acc.map (fun p => if p.1 = w then (p.1, p.2 ++ [d]) else p)
  else acc ++ [(w, [d])]

/-- `BookingUser._generate_candidate_days` (booking_user.py lines 131-144):
group the days `now, now+1, ..., now+ndays-1` by weekday name, keyed in
first-seen order.  `nowDay` is the day number of `datetime.datetime.now()`.
The Python `for i in range(ndays)` loop is unrolled from its last
iteration. -/
def generateCandidateDays (nowDay : Nat) : Nat → List (String × List Nat)
  | 0 => []
  | n + 1 => addCandidateDay (generateCandidateDays nowDay n) (weekdayName (nowDay + n)) (nowDay + n)

/-- First half of `_filter_days_to_schedule` (booking_user.py lines 150-159),
for one class type: for each preference entry whose weekday occurs among the
candidate days, the cross product `for hour in class_hours for class_date in
class_dates`, in preference order. -/
def rawCandidates (cdays : List (String × List Nat)) : List DayPreference → List Candidate
  | [] => []
  | p :: rest =>
    match lookupStr p.weekday cdays with
    | none => rawCandidates cdays rest
    | some ds =>
      (p.hours.map (fun h => ds.map (fun d => Candidate.mk d p.weekday h p.friends))).flatten
        ++ rawCandidates cdays rest

/-- Second half of `_filter_days_to_schedule` (booking_user.py lines 161-177),
inner loop for one class type: keep a candidate when its instant is strictly
in the future and its `(date, hour)` pair is not among the scheduled
`(classDate, classTime.lower())` pairs.  Note only the scheduled side is
lower-cased.  A malformed candidate hour raises out of the loop. -/
def filterCandidates (nowMin : Nat) (schedDays : List (Nat × String)) :
    List Candidate → Except PyError (List Candidate)
  | [] => .ok []
  | c :: rest =>
    match parseHour c.hour with
    | .error e => .error e
    | .ok t =>
      match filterCandidates nowMin schedDays rest with
      | .error e => .error e
      | .ok out =>
        if (nowMin : Int) < (c.date : Int) * 1440 + t ∧ (c.date, c.hour) ∉ schedDays then
          .ok (c :: out)
        else .ok out

/-- Second half of `_filter_days_to_schedule`, outer loop: for each class
type in order, look up its scheduled classes (Python `scheduled_classes[k]`,
a `KeyError` when absent), build the set of
`(classDate, classTime.lower())` pairs and filter the class's candidates. -/
def filterScheduled (nowMin : Nat) (sched : List (String × List ScheduledClass)) :
    List (String × List Candidate) → Except PyError (List (String × List Candidate))
  | [] => .ok []
  | (k, cands) :: rest =>
    match lookupStr k sched with
    | none => .error .keyError
    | some scl =>
      match filterCandidates nowMin (scl.map (fun s => (s.classDate, pyLower s.classTime))) cands with
      | .error e => .error e
      | .ok out =>
        match filterScheduled nowMin sched rest with
        | .error e => .error e
        | .ok restOut => .ok ((k, out) :: restOut)

/-- `BookingUser._filter_days_to_schedule` (booking_user.py lines 146-177):
build the per-class raw candidates from the preferences, then filter each
class's list against its scheduled classes (`scheduled_classes[class]`
raising `KeyError` when the key is absent).  Both `datetime.now()` calls of
the method are the same fixed instant `nowMin`. -/
def filterDaysToSchedule (nowMin : Nat) (prefs : List (String × List DayPreference))
    (cdays : List (String × List Nat)) (sched : List (String × List ScheduledClass)) :
    Except PyError (List (String × List Candidate)) :=
  filterScheduled nowMin sched (prefs.map (fun p => (p.1, rawCandidates cdays p.2)))

/-- `BookingUser.generate_candidates` (booking_user.py lines 45-57) with the
remote state abstracted: `ndays = 8`, candidate days from `now`, filtering
against the scheduled classes, then dropping class types with an empty
candidate list. -/
def generateCandidates (nowMin : Nat) (prefs : List (String × List DayPreference))
    (sched : List (String × List ScheduledClass)) :
    Except PyError (List (String × List Candidate)) :=
  match filterDaysToSchedule nowMin prefs (generateCandidateDays (nowMin / 1440) 8) sched with
  | .error e => .error e
  | .ok cs => .ok (cs.filter (fun p => 0 < p.2.length))

/-- The dictionary built by the `filtered_bookings` loop of
`get_classes_to_schedule` (booking_user.py lines 73-78), looked up at day
`d`: the last response element whose parsed `_id` equals `d` and lies in
`days_to_filter` (a later duplicate date overwrites an earlier one, as in a
Python dict).  `none` models the `KeyError` of `filtered_bookings[day]`. -/
def filteredLookup (bookings : List RemoteDay) (daysFilter : List Nat) (d : Nat) :
    Option RemoteDay :=
  (bookings.filter (fun b => b.day_id = d && daysFilter.contains b.day_id)).getLast?

/-- Inner loop `for real_class in filtered_bookings[day]["classes"]` of
`get_classes_to_schedule` (booking_user.py lines 85-90) for one candidate:
keep the slots whose parsed time equals the candidate's parsed time, with
`limit - joinedUsers >= required` spots, and `active`.  A malformed slot
time raises `ValueError` out of the loop. -/
def scanSlots (candTime : Int) (required : Int) : List RemoteSlot → Except PyError (List RemoteSlot)
  | [] => .ok []
  | s :: rest =>
    match parseHour s.classTime with
    | .error e => .error e
    | .ok t =>
      match scanSlots candTime required rest with
      | .error e => .error e
      | .ok out =>
        if t = candTime ∧ s.limit - s.joinedUsers ≥ required ∧ s.active then .ok (s :: out)
        else .ok out

/-- Loop `for candidate in candidates_class` of `get_classes_to_schedule`
(booking_user.py lines 80-90): per candidate, parse its hour, require
`1 + len(candidate[3])` spots, look its date up in the filtered bookings
(`KeyError` when absent) and scan that day's slots, appending the matches
in candidate order. -/
def matchCandidates (bookings : List RemoteDay) (daysFilter : List Nat) :
    List Candidate → Except PyError (List RemoteSlot)
  | [] => .ok []
  | c :: rest =>
    match parseHour c.hour with
    | .error e => .error e
    | .ok ct =>
      match filteredLookup bookings daysFilter c.date with
      | none => .error .keyError
      | some b =>
        match scanSlots ct (1 + (c.friends.length : Int)) b.classes with
        | .error e => .error e
        | .ok here =>
          match matchCandidates bookings daysFilter rest with
          | .error e => .error e
          | .ok out => .ok (here ++ out)

/-- `BookingUser.get_classes_to_schedule` (booking_user.py lines 59-95),
with the remote inventory fetch abstracted as `inventory class_type`
(successful responses): for each class type of the candidate dictionary,
match its candidates against the day groups of the inventory, keeping the
class type in the result only when it has at least one match. -/
def getClassesToSchedule (inventory : String → List RemoteDay) :
    List (String × List Candidate) → Except PyError (List (String × List RemoteSlot))
  | [] => .ok []
  | (ctype, cands) :: rest =>
    match matchCandidates (inventory ctype) (cands.map (fun c => c.date)) cands with
    | .error e => .error e
    | .ok slots =>
      match getClassesToSchedule inventory rest with
      | .error e => .error e
      | .ok out => .ok (if 0 < slots.length then (ctype, slots) :: out else out)

/-- The methods `BookingUser` actually defines (booking_user.py), with their
arity (number of arguments besides `self`; `_generate_candidate_days` is a
staticmethod of one argument). -/
def bookingUserMethodArity : List (String × Nat) :=
  [("get_scheduled_classes", 0), ("generate_candidates", 0),
   ("get_classes_to_schedule", 1), ("get_not_available_classes", 2),
   ("book_class", 1), ("cancel_class", 1), ("_generate_candidate_days", 1),
   ("_filter_days_to_schedule", 2), ("me", 0), ("auth", 0), ("_parse_hour", 1)]

/-- The instance attributes a `BookingUser` ever has (all assigned in
`__init__`; `me` and `auth` only overwrite `user_id` and an entry of the
`headers` dict). -/
def bookingUserAttributes : List String :=
  ["base_url", "name", "user_email", "password", "user_preferences",
   "auth_url", "classes_url", "headers", "timeout", "user_id", "classes"]

/-- Python attribute access `user.<attr>` on a `BookingUser`: succeeds for a
defined attribute or method, raises `AttributeError` otherwise. -/
def getBookingUserAttribute (attr : String) : Except PyError Unit :=
  if attr ∈ bookingUserAttributes ∨ (lookupStr attr bookingUserMethodArity).isSome then .ok ()
  else .error .attributeError

/-- Python call `user.<m>(a₁, ..., aₙ)` on a `BookingUser`: `AttributeError`
when the method does not exist, `TypeError` when the argument count does not
match its signature. -/
def callBookingUserMethod (m : String) (nargs : Nat) : Except PyError Unit :=
  match lookupStr m bookingUserMethodArity with
  | none => .error .attributeError
  | some k => if k = nargs then .ok () else .error .typeError

/-- `BookingSystem.generate_candidates` (booking_system.py lines 112-114):
`for user in self.booking_users: user.update_candidates()`, over `n`
users. -/
def systemGenerateCandidates : Nat → Except PyError Unit
  | 0 => .ok ()
  | n + 1 =>
    match callBookingUserMethod "update_candidates" 0 with
    | .error e => .error e
    | .ok _ => systemGenerateCandidates n

/-- The operations of the body of the `while True` loop of
`BookingSystem.run` (booking_system.py lines 151-170), in program order. -/
inductive CyclePhase where
  | enforceAuthPhase
  | generateCandidatesPhase
  | searchTargetDatePhase
  | doBookingsPhase
  | saveUserBookingsPhase
  | sleepUntilNextDayPhase
deriving DecidableEq

/-- The straight-line sequence of operations `BookingSystem.run` performs in
every cycle (booking_system.py lines 158-170). -/
def runCycleBody : List CyclePhase :=
  [.enforceAuthPhase, .generateCandidatesPhase, .searchTargetDatePhase,
   .doBookingsPhase, .saveUserBookingsPhase, .sleepUntilNextDayPhase]

/-- Whether a cycle operation runs availability matching or booking. -/
def isMatchingOrBookingPhase : CyclePhase → Bool
  | .generateCandidatesPhase => true
  | .doBookingsPhase => true
  | _ => false

/-- The operations a cycle performs after `do_bookings` returns. -/
def phasesAfterBooking : List CyclePhase :=
  (runCycleBody.dropWhile (fun p => p != CyclePhase.doBookingsPhase)).tail

/-- A user together with the outcome of its `auth()` + `me()` calls
(`authOk = false` models the `requests.exceptions.HTTPError` branch of
`BookingSystem._auth_users`). -/
structure AuthUser where
  name : String
  authOk : Bool
deriving DecidableEq

/-- `BookingSystem._auth_users` (booking_system.py lines 19-33): the users
whose authentication succeeds, in order (their count is the first component
of the Python return value). -/
def authUsersOf (users : List AuthUser) : List AuthUser :=
  users.filter (fun u => u.authOk)

/-- `BookingSystem.enforce_auth` (booking_system.py lines 35-48) with fuel
bounding the number of loop iterations: if all users authenticate the active
set is unchanged; if some do, the active set becomes exactly those
(`self.booking_users = auth_user_list`); if none do, sleep 1800 seconds and
retry.  Returns the resulting active set (`none` when the fuel runs out,
i.e. the loop has not terminated) and the total seconds slept. -/
def enforceAuth : Nat → List AuthUser → Option (List AuthUser) × Nat
  | 0, _ => (none, 0)
  | fuel + 1, users =>
    if (authUsersOf users).length = users.length then (some users, 0)
    else if 0 < (authUsersOf users).length then (some (authUsersOf users), 0)
    else
      let r := enforceAuth fuel users
      (r.1, 1800 + r.2)

/-- The active user set after `n` cycles of `BookingSystem.run`, each cycle
starting with `self.enforce_auth()` on the `self.booking_users` left by the
previous cycle (per-user auth outcomes held fixed). -/
def activeAfterCycles : Nat → Nat → List AuthUser → Option (List AuthUser)
  | 0, _, users => some users
  | n + 1, fuel, users =>
    match (enforceAuth fuel users).1 with
    | none => none
    | some users2 => activeAfterCycles n fuel users2

/-- `datetime.time(hour=h)` (used at booking_system.py line 72): raises
`ValueError` unless `0 <= h <= 23`; the value is `h` hours past midnight,
in minutes. -/
def pyTimeOfHour (h : Nat) : Except PyError Nat :=
  if h ≤ 23 then .ok (h * 60) else .error .valueError

/-- The sleep computation of the polling branch of
`BookingSystem.search_target_date` (booking_system.py lines 72-74):
`next_time = combine(dt, time(hour=dt.hour + 1)); secs = (next_time -
dt).total_seconds()`, at minute granularity. -/
def nextPollSleepSeconds (nowMin : Nat) : Except PyError Nat :=
  match pyTimeOfHour (nowMin % 1440 / 60 + 1) with
  | .error e => .error e
  | .ok t => .ok ((t - nowMin % 1440) * 60)

/-- One iteration of the polling loop of `BookingSystem.search_target_date`
(booking_system.py lines 55-82) with the per-class-type last visible dates
already fetched: `.ok none` models the `break` when the target date is
visible, `.ok (some secs)` the `time.sleep(secs)` before the next
iteration. -/
def searchTargetStep (targetDate : Nat) (lastDatesAvailable : List Nat) (nowMin : Nat) :
    Except PyError (Option Nat) :=
  if targetDate ∈ lastDatesAvailable then .ok none
  else
    match nextPollSleepSeconds nowMin with
    | .error e => .error e
    | .ok secs => .ok (some secs)

/-- Concrete users for exercising `enforce_auth`: one whose authentication
succeeds and one whose authentication fails. -/
def c8Users : List AuthUser :=
  [⟨"alice", true⟩, ⟨"bob", false⟩]

/-- A concrete candidate dictionary whose single candidate (day 3) has a
date absent from an empty remote inventory. -/
def c3Candidates : List (String × List Candidate) :=
  [("gymClass", [⟨3, "Thursday", "9:00 am", []⟩])]

/-- A concrete remote inventory containing the candidate's date (day 3) but
only a slot at a different hour, so no slot satisfies the match. -/
def c3Inventory : String → List RemoteDay := fun ctype =>
  if ctype = "gymClass" then [⟨3, [⟨"s1", 3, "7:00 pm", 10, 0, true⟩]⟩] else []

/-- Concrete candidates for the availability matcher: one candidate on day 0
at "9:00 am" with no companions. -/
def c5Candidates : List (String × List Candidate) :=
  [("gymClass", [⟨0, "Monday", "9:00 am", []⟩])]

/-- A remote slot with one free spot (`limit=10, joinedUsers=9, active`). -/
def c5Slot : RemoteSlot :=
  ⟨"s1", 0, "9:00 am", 10, 9, true⟩

/-- A concrete remote inventory whose day 0 group contains `c5Slot`. -/
def c5Inventory : String → List RemoteDay := fun ctype =>
  if ctype = "gymClass" then [⟨0, [c5Slot]⟩] else []

/-- Concrete preferences: Mondays at "9:00 AM" (upper case), no
companions. -/
def c6Prefs : List (String × List DayPreference) :=
  [("gymClass", [⟨"Monday", ["9:00 AM"], []⟩])]

/-- A concrete remote scheduled-classes response: an active booking on day 0
at "9:00 am" (lower case) for the gym class. -/
def c6Remote : String → List RawBooking := fun ctype =>
  if ctype = "gymClass" then [⟨"b1", "active", "c1", 0, "9:00 am"⟩] else []

/-- Concrete scheduled classes used by the witness of the amended C6
theorem: a scheduled class on day 0 at "10:00 am". -/
def c6Sched : List (String × List ScheduledClass) :=
  [("gymClass", [⟨"b1", "c1", 0, "Monday", "10:00 am"⟩])]

/-- Concrete candidate days for the witness of the amended C6 theorem. -/
def c6CandidateDays : List (String × List Nat) :=
  [("Monday", [0, 7])]

/-- Concrete lower-case preferences used by the C6 and C7 witnesses. -/
def c6PrefsLower : List (String × List DayPreference) :=
  [("gymClass", [⟨"Monday", ["9:00 am"], []⟩])]

/-- Concrete scheduled classes with the gym key present and empty. -/
def c7Sched : List (String × List ScheduledClass) :=
  [("gymClass", [])]

/-- Concrete preferences for the idempotence witness. -/
def c9Prefs : List (String × List DayPreference) :=
  [("tennisClass", [⟨"Friday", ["6:30 pm"], ["friend1"]⟩])]

/-- Concrete remote scheduled-classes responses for the idempotence
witness. -/
def c9Remote : String → List RawBooking := fun ctype =>
  if ctype = "tennisClass" then [⟨"b9", "active", "c9", 4, "6:30 pm"⟩] else []

/-- C2: evaluation of `_parse_hour` on the spec's four test strings.  The
code returns 720 minutes for "12:00 am" (the claim says 0) and 1440 minutes
for "12:00 pm" (the claim says 720), because the "pm" shift of +12 is
applied unconditionally; the two non-12-o-clock values match the claim. -/
theorem C2_parse_hour_on_twelve :
    parseHour "12:00 am" = .ok 720 ∧ parseHour "12:00 pm" = .ok 1440 ∧
    parseHour "1:30 pm" = .ok 810 ∧ parseHour "11:45 am" = .ok 705 := by
  decide

/-- C10: with the target date not yet visible, one iteration of the
`search_target_date` polling loop at a wall-clock time in hour 23 (here
23:20, minute 1400 of the day) evaluates `datetime.time(hour=dt.hour + 1)`
with `hour=24` and raises `ValueError`; at any earlier hour (here 10:00) it
sleeps until the top of the next hour. -/
theorem C10_hour23_value_error :
    1400 % 1440 / 60 = 23 ∧
    searchTargetStep 9 [7, 8] 1400 = .error PyError.valueError ∧
    searchTargetStep 9 [7, 8] 600 = .ok (some 3600) := by
  decide

/-- C4, counterexample: no operation the cycle performs after `do_bookings`
re-runs matching or booking, and matching+booking happen exactly once per
cycle — there is no retry ("crawler") phase in `BookingSystem.run`,
whatever candidates were left unmatched. -/
theorem C4_counterexample :
    phasesAfterBooking.all (fun p => !(isMatchingOrBookingPhase p)) = true ∧
    runCycleBody.count CyclePhase.doBookingsPhase = 1 := by
  decide

/-- C4, amended: after the booking step, a cycle of `BookingSystem.run`
saves the users' bookings and sleeps until the next day; unmatched
candidates are not retried within the cycle. -/
theorem C4_after_booking_only_save_and_sleep :
    phasesAfterBooking = [CyclePhase.saveUserBookingsPhase, CyclePhase.sleepUntilNextDayPhase] := by
  decide

/-- C1: for any non-zero number of users, `BookingSystem.generate_candidates`
raises `AttributeError` on its first user (`BookingUser` defines no
`update_candidates`); `user.candidates` also raises `AttributeError`
(no such attribute), and the two-positional-argument call
`user.get_classes_to_schedule(candidate_class, candidates_info)` of
`do_bookings` raises `TypeError` against the actual one-argument signature:
the candidate-generation/booking steps of the cycle raise rather than
complete. -/
theorem C1_cycle_raises (n : Nat) (h : 0 < n) :
    systemGenerateCandidates n = .error PyError.attributeError ∧
    getBookingUserAttribute "candidates" = .error PyError.attributeError ∧
    callBookingUserMethod "get_classes_to_schedule" 2 = .error PyError.typeError := by
  obtain ⟨m, rfl⟩ : ∃ m, n = m + 1 := ⟨n - 1, by omega⟩
  exact ⟨rfl, rfl, rfl⟩

theorem C1_cycle_raises_witness :
    0 < 1 ∧
    (systemGenerateCandidates 1 = .error PyError.attributeError ∧
     getBookingUserAttribute "candidates" = .error PyError.attributeError ∧
     callBookingUserMethod "get_classes_to_schedule" 2 = .error PyError.typeError) :=
  ⟨by decide, C1_cycle_raises 1 (by decide)⟩

/-- C9: candidate generation is a pure function of the fixed instant, the
preference set and the remote scheduled-classes state: re-running it with an
unchanged preference set against an unchanged remote state yields an
identical candidate dictionary, order included. -/
theorem C9_generation_idempotent (nowMin : Nat) (prefs : List (String × List DayPreference))
    (remote1 remote2 : String → List RawBooking)
    (hrem : ∀ ctype, remote1 ctype = remote2 ctype) :
    generateCandidates nowMin prefs (getScheduledClasses remote1) =
      generateCandidates nowMin prefs (getScheduledClasses remote2) := by
  have h : getScheduledClasses remote1 = getScheduledClasses remote2 := by
    unfold getScheduledClasses
    exact List.map_congr_left (fun ctype _ => by rw [hrem ctype])
  rw [h]

theorem C9_generation_idempotent_witness :
    (∀ ctype, c9Remote ctype = c9Remote ctype) ∧
    generateCandidates 0 c9Prefs (getScheduledClasses c9Remote) =
      generateCandidates 0 c9Prefs (getScheduledClasses c9Remote) :=
  ⟨fun _ => rfl, C9_generation_idempotent 0 c9Prefs c9Remote c9Remote (fun _ => rfl)⟩

theorem authUsersOf_all_ok (users : List AuthUser) (h : ∀ u ∈ users, u.authOk = true) :
    authUsersOf users = users :=
  List.filter_eq_self.mpr h

theorem enforceAuth_some_ok (users : List AuthUser) (fuel : Nat)
    (h : 0 < (authUsersOf users).length) :
    enforceAuth (fuel + 1) users = (some (authUsersOf users), 0) := by
  unfold enforceAuth
  by_cases hlen : (authUsersOf users).length = users.length
  · have hall : ∀ u ∈ users, u.authOk = true := List.filter_length_eq_length.mp hlen
    rw [if_pos hlen, authUsersOf_all_ok users hall]
  · rw [if_neg hlen, if_pos h]

theorem activeAfterCycles_all_ok (m fuel : Nat) (users : List AuthUser)
    (h : ∀ u ∈ users, u.authOk = true) :
    activeAfterCycles m (fuel + 1) users = some users := by
  induction m with
  | zero => rfl
  | succ k ih =>
    have hall : enforceAuth (fuel + 1) users = (some users, 0) := by
      unfold enforceAuth
      rw [if_pos (by rw [authUsersOf_all_ok users h])]
    unfold activeAfterCycles
    rw [hall]
    exact ih

/-- C8, counterexample: with one user whose authentication succeeds and one
whose authentication fails, the failed user is still absent from the active
set two cycles later: `enforce_auth` reassigns `self.booking_users`, so the
drop is permanent, not "for the remainder of that cycle only". -/
theorem C8_counterexample :
    activeAfterCycles 2 3 c8Users = some [⟨"alice", true⟩] ∧
    (⟨"bob", false⟩ : AuthUser) ∉ [(⟨"alice", true⟩ : AuthUser)] := by
  decide

/-- C8, amended: when at least one user authenticates, `enforce_auth`
immediately fixes the active set to exactly the successful users, and that
set persists through every later cycle (failed users never rejoin); when
every user fails, the loop never terminates, sleeping 1800 seconds (30
minutes) per retry. -/
theorem C8_failed_users_dropped_permanently (users : List AuthUser) (fuel n : Nat)
    (hn : 0 < n) :
    (0 < (authUsersOf users).length →
      activeAfterCycles n (fuel + 1) users = some (authUsersOf users)) ∧
    ((authUsersOf users).length = 0 → users ≠ [] →
      enforceAuth fuel users = (none, 1800 * fuel)) := by
  constructor
  · intro hp
    obtain ⟨m, rfl⟩ : ∃ m, n = m + 1 := ⟨n - 1, by omega⟩
    unfold activeAfterCycles
    rw [enforceAuth_some_ok users fuel hp]
    exact activeAfterCycles_all_ok m fuel _ (fun u hu => (List.mem_filter.mp hu).2)
  · intro h0 hne
    induction fuel with
    | zero => simp [enforceAuth]
    | succ k ih =>
      have h1 : ¬((authUsersOf users).length = users.length) := by
        have : 0 < users.length := List.length_pos.mpr hne
        omega
      have h2 : ¬(0 < (authUsersOf users).length) := by omega
      unfold enforceAuth
      rw [if_neg h1, if_neg h2, ih]
      show ((none : Option (List AuthUser)), 1800 + 1800 * k) = (none, 1800 * (k + 1))
      have harith : 1800 + 1800 * k = 1800 * (k + 1) := by ring
      rw [harith]

theorem C8_failed_users_dropped_permanently_witness :
    0 < 1 ∧
    ((0 < (authUsersOf c8Users).length →
       activeAfterCycles 1 (0 + 1) c8Users = some (authUsersOf c8Users)) ∧
     ((authUsersOf c8Users).length = 0 → c8Users ≠ [] →
       enforceAuth 0 c8Users = (none, 1800 * 0))) :=
  ⟨by decide, C8_failed_users_dropped_permanently c8Users 0 1 (by decide)⟩

theorem lookupStr_mem {α : Type} (k : String) (v : α) (l : List (String × α))
    (h : lookupStr k l = some v) : (k, v) ∈ l := by
  induction l with
  | nil => simp [lookupStr] at h
  | cons p rest ih =>
    obtain ⟨k2, v2⟩ := p
    simp only [lookupStr] at h
    by_cases hk : k2 = k
    · rw [if_pos hk] at h
      injection h with h
      rw [← hk, ← h]
      exact List.mem_cons_self _ _
    · rw [if_neg hk] at h
      exact List.mem_cons_of_mem _ (ih h)

theorem mem_addCandidateDay (acc : List (String × List Nat)) (w0 : String) (d0 : Nat)
    (w : String) (ds : List Nat) (d : Nat)
    (h : (w, ds) ∈ addCandidateDay acc w0 d0) (hd : d ∈ ds) :
    (∃ ds0, (w, ds0) ∈ acc ∧ d ∈ ds0) ∨ (w = w0 ∧ d = d0) := by
  unfold addCandidateDay at h
  by_cases hmem : (lookupStr w0 acc).isSome
  · rw [if_pos hmem] at h
    obtain ⟨p, hp, hfp⟩ := List.mem_map.mp h
    by_cases hw : p.1 = w0
    · rw [if_pos hw] at hfp
      obtain ⟨h1, h2⟩ := Prod.mk.injEq _ _ _ _ |>.mp hfp
      rw [← h2] at hd
      rcases List.mem_append.mp hd with hin | hin
      · exact Or.inl ⟨p.2, by rw [← h1]; exact hp, hin⟩
      · exact Or.inr ⟨by rw [← h1, hw], by simpa using hin⟩
    · rw [if_neg hw] at hfp
      exact Or.inl ⟨ds, hfp ▸ hp, hd⟩
  · rw [if_neg hmem] at h
    rcases List.mem_append.mp h with hin | hin
    · exact Or.inl ⟨ds, hin, hd⟩
    · simp only [List.mem_singleton, Prod.mk.injEq] at hin
      obtain ⟨hw, hds⟩ := hin
      refine Or.inr ⟨hw, ?_⟩
      rw [hds] at hd
      simpa using hd

theorem mem_generateCandidateDays (nowDay : Nat) (n : Nat) (w : String) (ds : List Nat)
    (d : Nat) (h : (w, ds) ∈ generateCandidateDays nowDay n) (hd : d ∈ ds) :
    weekdayName d = w ∧ nowDay ≤ d ∧ d < nowDay + n := by
  induction n generalizing w ds with
  | zero => simp [generateCandidateDays] at h
  | succ k ih =>
    rcases mem_addCandidateDay _ _ _ _ _ _ h hd with ⟨ds0, hmem, hd0⟩ | ⟨hw, hdd⟩
    · obtain ⟨h1, h2, h3⟩ := ih w ds0 hmem hd0
      exact ⟨h1, h2, by omega⟩
    · subst hdd
      exact ⟨hw.symm ▸ rfl, by omega, by omega⟩

theorem mem_rawCandidates (cdays : List (String × List Nat)) (prefs : List DayPreference)
    (c : Candidate) (h : c ∈ rawCandidates cdays prefs) :
    ∃ p, p ∈ prefs ∧ c.weekday = p.weekday ∧ c.friends = p.friends ∧ c.hour ∈ p.hours ∧
      ∃ ds, lookupStr p.weekday cdays = some ds ∧ c.date ∈ ds := by
  induction prefs with
  | nil => simp [rawCandidates] at h
  | cons p rest ih =>
    cases hl : lookupStr p.weekday cdays with
    | none =>
      simp only [rawCandidates, hl] at h
      obtain ⟨p2, hp2, hrest⟩ := ih h
      exact ⟨p2, List.mem_cons_of_mem _ hp2, hrest⟩
    | some ds =>
      simp only [rawCandidates, hl] at h
      rcases List.mem_append.mp h with hin | hin
      · obtain ⟨l, hlmem, hcl⟩ := List.mem_flatten.mp hin
        obtain ⟨hr, hhr, hleq⟩ := List.mem_map.mp hlmem
        rw [← hleq] at hcl
        obtain ⟨dd, hdd, hceq⟩ := List.mem_map.mp hcl
        refine ⟨p, List.mem_cons_self _ _, ?_, ?_, ?_, ds, hl, ?_⟩
        · rw [← hceq]
        · rw [← hceq]
        · rw [← hceq]; exact hhr
        · rw [← hceq]; exact hdd
      · obtain ⟨p2, hp2, hrest⟩ := ih hin
        exact ⟨p2, List.mem_cons_of_mem _ hp2, hrest⟩

theorem mem_filterCandidates (nowMin : Nat) (sd : List (Nat × String))
    (cands out : List Candidate) (c : Candidate)
    (h : filterCandidates nowMin sd cands = .ok out) (hc : c ∈ out) :
    c ∈ cands ∧ (c.date, c.hour) ∉ sd := by
  induction cands generalizing out with
  | nil =>
    simp only [filterCandidates, Except.ok.injEq] at h
    rw [← h] at hc
    simp at hc
  | cons c0 rest ih =>
    cases hp : parseHour c0.hour with
    | error e => simp [filterCandidates, hp] at h
    | ok t =>
      cases hr : filterCandidates nowMin sd rest with
      | error e => simp [filterCandidates, hp, hr] at h
      | ok out0 =>
        simp only [filterCandidates, hp, hr] at h
        by_cases hcond : (nowMin : Int) < (c0.date : Int) * 1440 + t ∧ (c0.date, c0.hour) ∉ sd
        · rw [if_pos hcond] at h
          injection h with h
          rw [← h] at hc
          rcases List.mem_cons.mp hc with heq | hmem
          · rw [heq]
            exact ⟨List.mem_cons_self _ _, hcond.2⟩
          · obtain ⟨hm, hns⟩ := ih out0 hr hmem
            exact ⟨List.mem_cons_of_mem _ hm, hns⟩
        · rw [if_neg hcond] at h
          injection h with h
          rw [← h] at hc
          obtain ⟨hm, hns⟩ := ih out0 hr hc
          exact ⟨List.mem_cons_of_mem _ hm, hns⟩

theorem mem_filterScheduled (nowMin : Nat) (sched : List (String × List ScheduledClass))
    (cc out : List (String × List Candidate)) (ctype : String) (cs : List Candidate)
    (h : filterScheduled nowMin sched cc = .ok out) (hm : (ctype, cs) ∈ out) :
    ∃ cands scl, (ctype, cands) ∈ cc ∧ lookupStr ctype sched = some scl ∧
      filterCandidates nowMin (scl.map (fun s => (s.classDate, pyLower s.classTime))) cands
        = .ok cs := by
  induction cc generalizing out with
  | nil =>
    simp only [filterScheduled, Except.ok.injEq] at h
    rw [← h] at hm
    simp at hm
  | cons p rest ih =>
    obtain ⟨k, cands⟩ := p
    cases hl : lookupStr k sched with
    | none => simp [filterScheduled, hl] at h
    | some scl =>
      cases hf : filterCandidates nowMin (scl.map (fun s => (s.classDate, pyLower s.classTime))) cands with
      | error e => simp [filterScheduled, hl, hf] at h
      | ok fout =>
        cases hrest : filterScheduled nowMin sched rest with
        | error e => simp [filterScheduled, hl, hf, hrest] at h
        | ok restOut =>
          simp only [filterScheduled, hl, hf, hrest, Except.ok.injEq] at h
          rw [← h] at hm
          rcases List.mem_cons.mp hm with heq | hmem
          · obtain ⟨hk, hcs⟩ := Prod.mk.injEq _ _ _ _ |>.mp heq
            refine ⟨cands, scl, ?_, ?_, ?_⟩
            · rw [hk]; exact List.mem_cons_self _ _
            · rw [hk]; exact hl
            · rw [hcs]; exact hf
          · obtain ⟨cands2, scl2, hmc, hls, hfc⟩ := ih restOut hrest hmem
            exact ⟨cands2, scl2, List.mem_cons_of_mem _ hmc, hls, hfc⟩

/-- C6, counterexample: with a preference for Mondays at "9:00 AM" (upper
case) and a scheduled active gym class on day 0 at "9:00 am" (lower case),
candidate generation emits the candidate `(0, "9:00 AM")` even though its
`(date, time)` pair matches the scheduled class case-insensitively: only the
scheduled side of the comparison is lower-cased. -/
theorem C6_counterexample :
    generateCandidates 0 c6Prefs (getScheduledClasses c6Remote)
      = .ok [("gymClass", [⟨0, "Monday", "9:00 AM", []⟩, ⟨7, "Monday", "9:00 AM", []⟩])] ∧
    pyLower "9:00 AM" = pyLower "9:00 am" ∧
    getScheduledClasses c6Remote
      = [("swimmingClass", []), ("gymClass", [⟨"b1", "c1", 0, "Monday", "9:00 am"⟩]),
         ("tennisClass", [])] := by
  decide

/-- C6, amended: candidate generation never emits a candidate whose
`(date, hour)` pair equals a scheduled class's
`(classDate, classTime.lower())` pair — the time comparison lower-cases only
the scheduled side, so exclusion is guaranteed only when the candidate's
time string is already lower case (e.g. a candidate "9:00 am" is excluded
by a scheduled "9:00 AM", but a candidate "9:00 AM" is not excluded by a
scheduled "9:00 am"). -/
theorem C6_no_candidate_equals_lowered_schedule
    (nowMin : Nat) (prefs : List (String × List DayPreference))
    (cdays : List (String × List Nat)) (sched : List (String × List ScheduledClass))
    (out : List (String × List Candidate)) (ctype : String) (cs : List Candidate)
    (c : Candidate) (scl : List ScheduledClass) (s : ScheduledClass)
    (h : filterDaysToSchedule nowMin prefs cdays sched = .ok out)
    (hm : (ctype, cs) ∈ out) (hc : c ∈ cs)
    (hl : lookupStr ctype sched = some scl) (hs : s ∈ scl)
    (hdate : c.date = s.classDate) : c.hour ≠ pyLower s.classTime := by
  intro hhour
  unfold filterDaysToSchedule at h
  obtain ⟨cands, scl2, hmc, hls, hfc⟩ := mem_filterScheduled _ _ _ _ _ _ h hm
  rw [hl] at hls
  injection hls with hls
  rw [hls] at hs
  obtain ⟨_, hns⟩ := mem_filterCandidates _ _ _ _ _ hfc hc
  apply hns
  rw [hdate, hhour]
  exact List.mem_map_of_mem _ hs

theorem C6_no_candidate_equals_lowered_schedule_witness :
    filterDaysToSchedule 0 c6PrefsLower c6CandidateDays c6Sched
      = .ok [("gymClass", [⟨0, "Monday", "9:00 am", []⟩, ⟨7, "Monday", "9:00 am", []⟩])] ∧
    (⟨0, "Monday", "9:00 am", []⟩ : Candidate).hour ≠ pyLower "10:00 am" :=
  ⟨by decide,
   C6_no_candidate_equals_lowered_schedule 0 c6PrefsLower c6CandidateDays c6Sched
     [("gymClass", [⟨0, "Monday", "9:00 am", []⟩, ⟨7, "Monday", "9:00 am", []⟩])]
     "gymClass" [⟨0, "Monday", "9:00 am", []⟩, ⟨7, "Monday", "9:00 am", []⟩]
     ⟨0, "Monday", "9:00 am", []⟩ [⟨"b1", "c1", 0, "Monday", "10:00 am"⟩]
     ⟨"b1", "c1", 0, "Monday", "10:00 am"⟩
     (by decide) (by decide) (by decide) (by decide) (by decide) (by decide)⟩

/-- C7: every candidate emitted by `_filter_days_to_schedule` over the
candidate days generated from `now` with horizon `ndays ≥ 1` carries the
weekday of the preference that produced it, its date falls on that weekday,
and the date lies within `[today, today + ndays - 1]` (the enumeration
includes today; the code calls this with `ndays = 8`). -/
theorem C7_candidates_on_weekday_within_horizon
    (nowMin ndays : Nat) (prefs : List (String × List DayPreference))
    (sched : List (String × List ScheduledClass))
    (out : List (String × List Candidate)) (ctype : String) (cs : List Candidate)
    (c : Candidate) (hn : 1 ≤ ndays)
    (h : filterDaysToSchedule nowMin prefs (generateCandidateDays (nowMin / 1440) ndays) sched
          = .ok out)
    (hm : (ctype, cs) ∈ out) (hc : c ∈ cs) :
    weekdayName c.date = c.weekday ∧
    nowMin / 1440 ≤ c.date ∧ c.date ≤ nowMin / 1440 + (ndays - 1) ∧
    ∃ plist dp, (ctype, plist) ∈ prefs ∧ dp ∈ plist ∧ c.weekday = dp.weekday := by
  unfold filterDaysToSchedule at h
  obtain ⟨cands, scl, hmc, hls, hfc⟩ := mem_filterScheduled _ _ _ _ _ _ h hm
  obtain ⟨hcin, _⟩ := mem_filterCandidates _ _ _ _ _ hfc hc
  obtain ⟨p, hp, hpe⟩ := List.mem_map.mp hmc
  obtain ⟨h1, h2⟩ := Prod.mk.injEq _ _ _ _ |>.mp hpe
  rw [← h2] at hcin
  obtain ⟨dp, hdp, hw, _, _, ds, hld, hdd⟩ := mem_rawCandidates _ _ _ hcin
  have hcd := mem_generateCandidateDays (nowMin / 1440) ndays dp.weekday ds c.date
    (lookupStr_mem _ _ _ hld) hdd
  refine ⟨?_, hcd.2.1, by omega, p.2, dp, ?_, hdp, hw⟩
  · rw [hw, hcd.1]
  · rw [← h1]
    exact (by simpa using hp : (p.1, p.2) ∈ prefs)

theorem C7_candidates_on_weekday_within_horizon_witness :
    1 ≤ 8 ∧
    filterDaysToSchedule 0 c6PrefsLower (generateCandidateDays 0 8) c7Sched
      = .ok [("gymClass", [⟨0, "Monday", "9:00 am", []⟩, ⟨7, "Monday", "9:00 am", []⟩])] ∧
    (weekdayName 0 = "Monday" ∧ 0 / 1440 ≤ 0 ∧ 0 ≤ 0 / 1440 + (8 - 1) ∧
     ∃ plist dp, ("gymClass", plist) ∈ c6PrefsLower ∧ dp ∈ plist ∧ "Monday" = dp.weekday) := by
  refine ⟨by decide, by decide, ?_⟩
  exact C7_candidates_on_weekday_within_horizon 0 8 c6PrefsLower c7Sched
    [("gymClass", [⟨0, "Monday", "9:00 am", []⟩, ⟨7, "Monday", "9:00 am", []⟩])]
    "gymClass" [⟨0, "Monday", "9:00 am", []⟩, ⟨7, "Monday", "9:00 am", []⟩]
    ⟨0, "Monday", "9:00 am", []⟩ (by decide) (by decide) (by decide) (by decide)

theorem mem_scanSlots (ct req : Int) (slots out : List RemoteSlot) (s : RemoteSlot)
    (h : scanSlots ct req slots = .ok out) (hs : s ∈ out) :
    s ∈ slots ∧ parseHour s.classTime = .ok ct ∧ req ≤ s.limit - s.joinedUsers ∧
      s.active = true := by
  induction slots generalizing out with
  | nil =>
    simp only [scanSlots, Except.ok.injEq] at h
    rw [← h] at hs
    simp at hs
  | cons s0 rest ih =>
    cases hp : parseHour s0.classTime with
    | error e => simp [scanSlots, hp] at h
    | ok t =>
      cases hr : scanSlots ct req rest with
      | error e => simp [scanSlots, hp, hr] at h
      | ok out0 =>
        simp only [scanSlots, hp, hr] at h
        by_cases hcond : t = ct ∧ req ≤ s0.limit - s0.joinedUsers ∧ s0.active
        · rw [if_pos hcond] at h
          injection h with h
          rw [← h] at hs
          rcases List.mem_cons.mp hs with heq | hmem
          · rw [heq]
            refine ⟨List.mem_cons_self _ _, ?_, hcond.2.1, hcond.2.2⟩
            rw [hp, hcond.1]
          · obtain ⟨hm, hrest⟩ := ih out0 hr hmem
            exact ⟨List.mem_cons_of_mem _ hm, hrest⟩
        · rw [if_neg hcond] at h
          injection h with h
          rw [← h] at hs
          obtain ⟨hm, hrest⟩ := ih out0 hr hs
          exact ⟨List.mem_cons_of_mem _ hm, hrest⟩

theorem mem_matchCandidates (bookings : List RemoteDay) (daysFilter : List Nat)
    (cands : List Candidate) (out : List RemoteSlot) (s : RemoteSlot)
    (h : matchCandidates bookings daysFilter cands = .ok out) (hs : s ∈ out) :
    ∃ c, c ∈ cands ∧ ∃ t, parseHour c.hour = .ok t ∧ parseHour s.classTime = .ok t ∧
      1 + (c.friends.length : Int) ≤ s.limit - s.joinedUsers ∧ s.active = true := by
  induction cands generalizing out with
  | nil =>
    simp only [matchCandidates, Except.ok.injEq] at h
    rw [← h] at hs
    simp at hs
  | cons c0 rest ih =>
    cases hp : parseHour c0.hour with
    | error e => simp [matchCandidates, hp] at h
    | ok ct =>
      cases hfl : filteredLookup bookings daysFilter c0.date with
      | none => simp [matchCandidates, hp, hfl] at h
      | some b =>
        cases hsc : scanSlots ct (1 + (c0.friends.length : Int)) b.classes with
        | error e => simp [matchCandidates, hp, hfl, hsc] at h
        | ok here =>
          cases hmr : matchCandidates bookings daysFilter rest with
          | error e => simp [matchCandidates, hp, hfl, hsc, hmr] at h
          | ok out0 =>
            simp only [matchCandidates, hp, hfl, hsc, hmr, Except.ok.injEq] at h
            rw [← h] at hs
            rcases List.mem_append.mp hs with hin | hin
            · obtain ⟨_, hpt, hcap, hact⟩ := mem_scanSlots _ _ _ _ _ hsc hin
              exact ⟨c0, List.mem_cons_self _ _, ct, hp, hpt, hcap, hact⟩
            · obtain ⟨c2, hc2, hrest⟩ := ih out0 hmr hin
              exact ⟨c2, List.mem_cons_of_mem _ hc2, hrest⟩

/-- C5: every slot returned by `get_classes_to_schedule` is active, and
matches some supplied candidate of its class type with an equal parsed
time-of-day and an available capacity (`limit - joinedUsers`) of at least
`1 + |companions|` of that candidate; in particular a candidate with 2
companions never produces a match on a slot with exactly 2 free spots, and
an inactive slot is never returned. -/
theorem C5_match_requires_capacity_and_active
    (inventory : String → List RemoteDay) (candidates : List (String × List Candidate))
    (out : List (String × List RemoteSlot)) (ctype : String) (slots : List RemoteSlot)
    (s : RemoteSlot)
    (h : getClassesToSchedule inventory candidates = .ok out)
    (hm : (ctype, slots) ∈ out) (hs : s ∈ slots) :
    s.active = true ∧ ∃ cands, (ctype, cands) ∈ candidates ∧ ∃ c, c ∈ cands ∧
      1 + (c.friends.length : Int) ≤ s.limit - s.joinedUsers ∧
      ∃ t, parseHour c.hour = .ok t ∧ parseHour s.classTime = .ok t := by
  induction candidates generalizing out with
  | nil =>
    simp only [getClassesToSchedule, Except.ok.injEq] at h
    rw [← h] at hm
    simp at hm
  | cons p rest ih =>
    obtain ⟨k, cands⟩ := p
    cases hmc : matchCandidates (inventory k) (cands.map (fun c => c.date)) cands with
    | error e => simp [getClassesToSchedule, hmc] at h
    | ok slots0 =>
      cases hrest : getClassesToSchedule inventory rest with
      | error e => simp [getClassesToSchedule, hmc, hrest] at h
      | ok out0 =>
        simp only [getClassesToSchedule, hmc, hrest, Except.ok.injEq] at h
        have hfromRest : (ctype, slots) ∈ out0 →
            s.active = true ∧ ∃ cands2, (ctype, cands2) ∈ (k, cands) :: rest ∧
              ∃ c, c ∈ cands2 ∧ 1 + (c.friends.length : Int) ≤ s.limit - s.joinedUsers ∧
              ∃ t, parseHour c.hour = .ok t ∧ parseHour s.classTime = .ok t := by
          intro hmem
          obtain ⟨hact, cands2, hc2, hrest2⟩ := ih out0 hrest hmem
          exact ⟨hact, cands2, List.mem_cons_of_mem _ hc2, hrest2⟩
        by_cases hlen : 0 < slots0.length
        · rw [if_pos hlen] at h
          rw [← h] at hm
          rcases List.mem_cons.mp hm with heq | hmem
          · obtain ⟨hk, hsl⟩ := Prod.mk.injEq _ _ _ _ |>.mp heq
            rw [hsl] at hs
            obtain ⟨c, hcm, t, hpc, hps, hcap, hact⟩ := mem_matchCandidates _ _ _ _ _ hmc hs
            refine ⟨hact, cands, ?_, c, hcm, hcap, t, hpc, hps⟩
            rw [hk]
            exact List.mem_cons_self _ _
          · exact hfromRest hmem
        · rw [if_neg hlen] at h
          rw [← h] at hm
          exact hfromRest hm

theorem C5_match_requires_capacity_and_active_witness :
    getClassesToSchedule c5Inventory c5Candidates = .ok [("gymClass", [c5Slot])] ∧
    (c5Slot.active = true ∧ ∃ cands, ("gymClass", cands) ∈ c5Candidates ∧ ∃ c, c ∈ cands ∧
      1 + (c.friends.length : Int) ≤ c5Slot.limit - c5Slot.joinedUsers ∧
      ∃ t, parseHour c.hour = .ok t ∧ parseHour c5Slot.classTime = .ok t) :=
  ⟨by decide,
   C5_match_requires_capacity_and_active c5Inventory c5Candidates
     [("gymClass", [c5Slot])] "gymClass" [c5Slot] c5Slot
     (by decide) (by decide) (by decide)⟩

theorem scanSlots_isOk (ct req : Int) (slots : List RemoteSlot)
    (h : ∀ s ∈ slots, ∃ t, parseHour s.classTime = Except.ok t) :
    ∃ out, scanSlots ct req slots = .ok out := by
  induction slots with
  | nil => exact ⟨[], rfl⟩
  | cons s rest ih =>
    obtain ⟨t, ht⟩ := h s (List.mem_cons_self _ _)
    obtain ⟨out, hout⟩ := ih (fun s2 hs2 => h s2 (List.mem_cons_of_mem _ hs2))
    refine ⟨if t = ct ∧ req ≤ s.limit - s.joinedUsers ∧ s.active then s :: out else out, ?_⟩
    simp only [scanSlots, ht, hout]
    split <;> rfl

theorem matchCandidates_isOk (bookings : List RemoteDay) (daysFilter : List Nat)
    (cands : List Candidate)
    (hpresent : ∀ c ∈ cands, ∃ b, b ∈ bookings ∧ b.day_id = c.date ∧ c.date ∈ daysFilter)
    (hctime : ∀ c ∈ cands, ∃ t, parseHour c.hour = Except.ok t)
    (hstime : ∀ b ∈ bookings, ∀ s ∈ b.classes, ∃ t, parseHour s.classTime = Except.ok t) :
    ∃ out, matchCandidates bookings daysFilter cands = .ok out := by
  induction cands with
  | nil => exact ⟨[], rfl⟩
  | cons c rest ih =>
    obtain ⟨ct, hct⟩ := hctime c (List.mem_cons_self _ _)
    obtain ⟨b0, hb0, hbd, hbf⟩ := hpresent c (List.mem_cons_self _ _)
    have hb0f : b0 ∈ bookings.filter (fun b => b.day_id = c.date && daysFilter.contains b.day_id) := by
      apply List.mem_filter.mpr
      refine ⟨hb0, ?_⟩
      rw [hbd]
      simp only [decide_True, Bool.true_and]
      exact List.elem_eq_true_of_mem hbf
    have hsome : (filteredLookup bookings daysFilter c.date).isSome := by
      unfold filteredLookup
      exact List.getLast?_isSome.mpr (List.ne_nil_of_mem hb0f)
    obtain ⟨b, hb⟩ := Option.isSome_iff_exists.mp hsome
    have hbmem : b ∈ bookings := by
      have := List.mem_of_mem_getLast? (l := bookings.filter
        (fun b => b.day_id = c.date && daysFilter.contains b.day_id)) hb
      exact (List.mem_filter.mp this).1
    obtain ⟨here, hhere⟩ := scanSlots_isOk ct (1 + (c.friends.length : Int)) b.classes
      (fun s hsmem => hstime b hbmem s hsmem)
    obtain ⟨out, hout⟩ := ih
      (fun c2 hc2 => hpresent c2 (List.mem_cons_of_mem _ hc2))
      (fun c2 hc2 => hctime c2 (List.mem_cons_of_mem _ hc2))
    refine ⟨here ++ out, ?_⟩
    simp only [matchCandidates, hct, hb, hhere, hout]

/-- C3, counterexample: a candidate (day 3) whose date is absent from the
fetched remote inventory makes `get_classes_to_schedule` raise `KeyError`
at `filtered_bookings[day]` instead of returning normally with the
candidate in a residual list. -/
theorem C3_counterexample :
    getClassesToSchedule (fun _ => []) c3Candidates = .error PyError.keyError := by
  decide

/-- C3, amended: when every candidate's date is present in the fetched
remote inventory (and the time strings parse), the matcher returns normally;
a candidate for which no slot satisfies the matching conditions simply
contributes no match (the residual is recomputed separately by
`get_not_available_classes`).  A candidate whose date is absent from the
inventory instead raises `KeyError`. -/
theorem C3_present_dates_return_normally
    (inventory : String → List RemoteDay) (candidates : List (String × List Candidate))
    (hpresent : ∀ p, p ∈ candidates → ∀ c, c ∈ p.2 → ∃ b, b ∈ inventory p.1 ∧ b.day_id = c.date)
    (hctime : ∀ p, p ∈ candidates → ∀ c, c ∈ p.2 → ∃ t, parseHour c.hour = Except.ok t)
    (hstime : ∀ ctype, ∀ b, b ∈ inventory ctype → ∀ s, s ∈ b.classes →
      ∃ t, parseHour s.classTime = Except.ok t) :
    ∃ res, getClassesToSchedule inventory candidates = Except.ok res := by
  induction candidates with
  | nil => exact ⟨[], rfl⟩
  | cons p rest ih =>
    obtain ⟨k, cands⟩ := p
    obtain ⟨slots, hslots⟩ := matchCandidates_isOk (inventory k) (cands.map (fun c => c.date))
      cands
      (fun c hc => by
        obtain ⟨b, hb1, hb2⟩ := hpresent (k, cands) (List.mem_cons_self _ _) c hc
        exact ⟨b, hb1, hb2, List.mem_map_of_mem _ hc⟩)
      (fun c hc => hctime (k, cands) (List.mem_cons_self _ _) c hc)
      (fun b hb s hsm => hstime k b hb s hsm)
    obtain ⟨out, hout⟩ := ih
      (fun p2 hp2 => hpresent p2 (List.mem_cons_of_mem _ hp2))
      (fun p2 hp2 => hctime p2 (List.mem_cons_of_mem _ hp2))
    refine ⟨if 0 < slots.length then (k, slots) :: out else out, ?_⟩
    simp only [getClassesToSchedule, hslots, hout]

theorem c3_hyp_present :
    ∀ p, p ∈ c3Candidates → ∀ c, c ∈ p.2 → ∃ b, b ∈ c3Inventory p.1 ∧ b.day_id = c.date := by
  intro p hp c hc
  fin_cases hp
  simp only [c3Candidates, List.mem_singleton] at hc
  subst hc
  exact ⟨⟨3, [⟨"s1", 3, "7:00 pm", 10, 0, true⟩]⟩, by decide, by decide⟩

theorem c3_hyp_ctime :
    ∀ p, p ∈ c3Candidates → ∀ c, c ∈ p.2 → ∃ t, parseHour c.hour = Except.ok t := by
  intro p hp c hc
  fin_cases hp
  simp only [c3Candidates, List.mem_singleton] at hc
  subst hc
  exact ⟨540, by decide⟩

theorem c3_hyp_stime :
    ∀ ctype, ∀ b, b ∈ c3Inventory ctype → ∀ s, s ∈ b.classes →
      ∃ t, parseHour s.classTime = Except.ok t := by
  intro ctype b hb s hsm
  by_cases hk : ctype = "gymClass"
  · subst hk
    simp only [c3Inventory, if_pos] at hb
    simp only [List.mem_singleton] at hb
    subst hb
    simp only [List.mem_singleton] at hsm
    subst hsm
    exact ⟨1140, by decide⟩
  · simp [c3Inventory, hk] at hb

theorem C3_present_dates_return_normally_witness :
    (∀ p, p ∈ c3Candidates → ∀ c, c ∈ p.2 →
      ∃ b, b ∈ c3Inventory p.1 ∧ b.day_id = c.date) ∧
    (∀ p, p ∈ c3Candidates → ∀ c, c ∈ p.2 → ∃ t, parseHour c.hour = Except.ok t) ∧
    (∀ ctype, ∀ b, b ∈ c3Inventory ctype → ∀ s, s ∈ b.classes →
      ∃ t, parseHour s.classTime = Except.ok t) ∧
    ∃ res, getClassesToSchedule c3Inventory c3Candidates = Except.ok res :=
  ⟨c3_hyp_present, c3_hyp_ctime, c3_hyp_stime,
   C3_present_dates_return_normally c3Inventory c3Candidates
     c3_hyp_present c3_hyp_ctime c3_hyp_stime⟩
